import Mathlib

/-!
Verification development for the fire-finance household admission controller
and real-time collaboration subsystem.  The definitions below are a shallow
embedding of the backend source: the relational tables become lists of rows,
the Express middleware and route handlers become pure functions from a
database state (plus request data) to an updated database state and an HTTP
response, and the socket.io event handlers become pure functions from the
relevant in-memory state to emitted events.
-/

namespace FireFinance

/-- A row of the `household_members` table (the fields the admission
controller reads and writes). -/
structure Membership where
  memberId : Nat
  householdId : Nat
  userId : Nat
  role : String
  permissions : String
  canInvite : Bool
  isActive : Bool
deriving DecidableEq, Repr

/-- A row of the `household_invitations` table. -/
structure Invitation where
  invId : Nat
  householdId : Nat
  email : String
  role : String
  permissions : String
  status : String
  expiresAt : Nat
deriving DecidableEq, Repr

/-- A row of the `users` table (the fields the admission paths read). -/
structure UserRow where
  userId : Nat
  email : String
  username : String
  isActive : Bool
deriving DecidableEq, Repr

/-- A row of the `households` table. -/
structure HouseholdRow where
  householdId : Nat
  name : String
  ownerId : Nat
deriving DecidableEq, Repr

/-- A row of the `chat_messages` table (fields used by the chat subsystem). -/
structure ChatMsg where
  msgId : Nat
  roomType : String
  roomId : Nat
  userId : Nat
  message : String
  parentId : Option Nat
  createdAt : Nat
deriving DecidableEq, Repr

/-- The durable store: the tables touched by the admission controller and
the chat subsystem. -/
structure Db where
  users : List UserRow
  households : List HouseholdRow
  members : List Membership
  invitations : List Invitation
  chatMessages : List ChatMsg
deriving DecidableEq, Repr

/-- `select count(*) from household_members where household_id = h and
is_active = true`, the read performed by `checkUserCap` and
`canAddUserToHousehold` in `middleware/userCap.js`. -/
def activeMemberCount (db : Db) (h : Nat) : Nat :=
  (db.members.filter (fun m => m.householdId == h && m.isActive)).length

/-- The record returned by `canAddUserToHousehold` in
`middleware/userCap.js`. -/
structure CapCheck where
  canAdd : Bool
  currentUsers : Nat
  maxUsers : Nat
  remainingSlots : Int
deriving DecidableEq, Repr

/-- `canAddUserToHousehold(householdId)` from `middleware/userCap.js`:
count active members and compare against `maxUsers`
(`parseInt(process.env.MAX_USERS) || 5`, passed here as a parameter). -/
def canAddUserToHousehold (db : Db) (h : Nat) (maxUsers : Nat) : CapCheck :=
  let c := activeMemberCount db h
  { canAdd := decide (c < maxUsers)
    currentUsers := c
    maxUsers := maxUsers
    remainingSlots := (maxUsers : Int) - (c : Int) }

/-- An HTTP JSON response: the status code and the body fields that the
admission and invitation endpoints can set (`none` = field absent). -/
structure HttpResponse where
  status : Nat
  error : Option String
  message : Option String
  currentUsers : Option Nat
  maxUsers : Option Nat
deriving DecidableEq, Repr

/-- The advisory message string built by `checkUserCap`. -/
def capLimitMessage (maxUsers : Nat) : String :=
  s!"Maximum {maxUsers} users allowed per household. Please contact an admin to remove inactive users."

/-- The 403 body produced by `checkUserCap` when the cap is reached: it
carries `currentUsers` and `maxUsers` alongside the error. -/
def userCapRejection (current maxUsers : Nat) : HttpResponse :=
  { status := 403
    error := some "User limit reached"
    message := some (capLimitMessage maxUsers)
    currentUsers := some current
    maxUsers := some maxUsers }

/-- The 400 body produced by `checkUserCap` when no household id can be
resolved from the request. -/
def householdIdRequired : HttpResponse :=
  { status := 400, error := some "Household ID is required"
    message := none, currentUsers := none, maxUsers := none }

/-- `checkUserCap` middleware from `middleware/userCap.js`.  The household id
is resolved as `req.body.householdId || req.params.householdId ||
req.user?.householdId` (in that order).  On success the middleware passes
control on, recording `req.userCount`; on failure it short-circuits with a
response and the handler never runs. -/
def checkUserCap (db : Db) (maxUsers : Nat)
    (bodyHid paramsHid userHid : Option Nat) : Except HttpResponse Nat :=
  match bodyHid <|> paramsHid <|> userHid with
  | none => .error householdIdRequired
  | some h =>
    let c := activeMemberCount db h
    if maxUsers ≤ c then .error (userCapRejection c maxUsers)
    else .ok c

/-- JavaScript `toLowerCase()`: lower-case every character. -/
def jsToLower (s : String) : String :=
  String.mk (s.data.map Char.toLower)

/-- A plain error/success response carrying only `error` or `message`. -/
def errorResponse (status : Nat) (msg : String) : HttpResponse :=
  { status := status, error := some msg
    message := none, currentUsers := none, maxUsers := none }

/-- A success response carrying only `message`. -/
def okResponse (status : Nat) (msg : String) : HttpResponse :=
  { status := status, error := none
    message := some msg, currentUsers := none, maxUsers := none }

/-! ### Registration endpoint (`routes/auth.js`, `POST /register`) -/

/-- The request body of `POST /register`.  The route is unauthenticated and
has no route parameters, so `checkUserCap` can only find a household id in
the body. -/
structure RegisterReq where
  bodyHouseholdId : Option Nat
  email : Option String
  username : Option String
  password : Option String
  firstName : Option String
  lastName : Option String
deriving DecidableEq, Repr

/-- `POST /register` = `checkUserCap` middleware followed by the
registration handler from `routes/auth.js`: validate the fields, reject a
duplicate email/username, then insert a user row, a fresh household row and
an admin membership row.  `newUserId`/`newHouseholdId`/`newMemberId` stand
for the row ids generated by the store. -/
def registerEndpoint (db : Db) (maxUsers : Nat) (req : RegisterReq)
    (newUserId newHouseholdId newMemberId : Nat) : Db × HttpResponse :=
  match checkUserCap db maxUsers req.bodyHouseholdId none none with
  | .error r => (db, r)
  | .ok _ =>
    match req.email, req.username, req.password, req.firstName, req.lastName with
    | some email, some username, some password, some firstName, some _ =>
      if password.length < 8 then
        (db, errorResponse 400 "Password must be at least 8 characters long")
      else if db.users.any (fun u => u.email == jsToLower email || u.username == username) then
        (db, errorResponse 400 "User already exists with this email or username")
      else
        let newUser : UserRow :=
          { userId := newUserId, email := jsToLower email
            username := username, isActive := true }
        let newHousehold : HouseholdRow :=
          { householdId := newHouseholdId
            name := s!"{firstName}s Household", ownerId := newUserId }
        let newMember : Membership :=
          { memberId := newMemberId, householdId := newHouseholdId
            userId := newUserId, role := "admin", permissions := "full"
            canInvite := true, isActive := true }
        ({ db with
            users := db.users ++ [newUser]
            households := db.households ++ [newHousehold]
            members := db.members ++ [newMember] },
         okResponse 201 "User registered successfully. Please check your email for verification.")
    | _, _, _, _, _ =>
      (db, errorResponse 400 "All required fields must be provided")

/-! ### Invite endpoint (`POST /:householdId/invite`, `src/unnamed/part_005`) -/

/-- The request body of the invite endpoint.  `role` defaults to `member`
and `permissions` to `read_write` when absent. -/
structure InviteReq where
  bodyHouseholdId : Option Nat
  email : Option String
  role : Option String
  permissions : Option String
deriving DecidableEq, Repr

/-- Observable side channel of the invite endpoint: invitation emails sent
via `sendEmail`. -/
inductive EmailEvent
  | invitationEmail (recipient : String) (householdId : Nat)
deriving DecidableEq, Repr

/-- A fresh invitation row as inserted by the invite handler. -/
def mkInvitation (invId householdId : Nat) (email role permissions : String)
    (now : Nat) : Invitation :=
  { invId := invId, householdId := householdId, email := email
    role := role, permissions := permissions, status := "pending"
    expiresAt := now + 7 * 24 * 60 * 60 * 1000 }

/-- `POST /:householdId/invite` = `checkUserCap` middleware (which resolves
`req.body.householdId || req.params.householdId`) followed by the invite
handler: look up the target user by lowercased email; if an existing member
row is found, reject if it is active, otherwise reactivate it in place with
the new role/permissions and return success; otherwise insert a pending
invitation row and send an invitation email. -/
def inviteEndpoint (db : Db) (maxUsers : Nat) (householdIdParam : Nat)
    (req : InviteReq) (now freshInvId : Nat) :
    Db × HttpResponse × List EmailEvent :=
  match checkUserCap db maxUsers req.bodyHouseholdId (some householdIdParam) none with
  | .error r => (db, r, [])
  | .ok _ =>
    match req.email with
    | none => (db, errorResponse 400 "Email is required", [])
    | some email =>
      let role := req.role.getD "member"
      let permissions := req.permissions.getD "read_write"
      let emailLc := jsToLower email
      let inviteInsert : Db × HttpResponse × List EmailEvent :=
        ({ db with invitations :=
            db.invitations ++ [mkInvitation freshInvId householdIdParam emailLc role permissions now] },
         okResponse 200 "Invitation sent successfully",
         [.invitationEmail email householdIdParam])
      match db.users.find? (fun u => u.email == emailLc) with
      | none => inviteInsert
      | some existingUser =>
        match db.members.find? (fun m =>
            m.householdId == householdIdParam && m.userId == existingUser.userId) with
        | none => inviteInsert
        | some existingMember =>
          if existingMember.isActive then
            (db, errorResponse 400 "User is already a member of this household", [])
          else
            ({ db with members := db.members.map (fun m =>
                if m.memberId == existingMember.memberId then
                  { m with isActive := true, role := role, permissions := permissions }
                else m) },
             okResponse 200 "User reactivated successfully", [])

/-! ### Accept endpoint (`POST /invitations/:invitationId/accept`) -/

/-- The invitation lookup performed by the accept handler: a row with the
given id, status `pending`, and `expires_at` in the future. -/
def findInvitation (db : Db) (now : Nat) (invId : Nat) : Option Invitation :=
  db.invitations.find? (fun i =>
    i.invId == invId && i.status == "pending" && decide (now < i.expiresAt))

/-- The membership row inserted when an invitation is accepted
(`can_invite` is true exactly for admin invitations). -/
def mkAcceptMember (inv : Invitation) (userId freshMemberId : Nat) : Membership :=
  { memberId := freshMemberId, householdId := inv.householdId
    userId := userId, role := inv.role, permissions := inv.permissions
    canInvite := inv.role == "admin", isActive := true }

/-- Mark an invitation row accepted, as the accept handler's update does. -/
def markAccepted (invs : List Invitation) (invId : Nat) : List Invitation :=
  invs.map (fun i => if i.invId == invId then { i with status := "accepted" } else i)

/-- The 403 body the accept handler returns when `canAddUserToHousehold`
denies admission: unlike `checkUserCap`, it carries no `currentUsers` or
`maxUsers` fields, only the error and an advisory message. -/
def acceptCapRejection (maxUsers : Nat) : HttpResponse :=
  { status := 403
    error := some "User limit reached"
    message := some s!"Maximum {maxUsers} users allowed per household."
    currentUsers := none
    maxUsers := none }

/-- `POST /invitations/:invitationId/accept` from `src/unnamed/part_005`:
look up a pending unexpired invitation, check the caller's email matches,
re-check capacity via `canAddUserToHousehold`, then insert the membership
row and only afterwards mark the invitation accepted.  `insertOk` models
whether the membership insert commits; when it throws, the handler's catch
block answers 500 and the status update never runs. -/
def acceptInvitation (db : Db) (maxUsers now : Nat) (userId : Nat)
    (userEmail : String) (invId freshMemberId : Nat) (insertOk : Bool) :
    Db × HttpResponse :=
  match findInvitation db now invId with
  | none => (db, errorResponse 400 "Invalid or expired invitation")
  | some inv =>
    if userEmail ≠ inv.email then
      (db, errorResponse 403 "Invitation is for a different email address")
    else
      let cap := canAddUserToHousehold db inv.householdId maxUsers
      if !cap.canAdd then (db, acceptCapRejection maxUsers)
      else if !insertOk then (db, errorResponse 500 "Failed to accept invitation")
      else
        ({ db with
            members := db.members ++ [mkAcceptMember inv userId freshMemberId]
            invitations := markAccepted db.invitations invId },
         okResponse 200 "Invitation accepted successfully")

/-! ### Socket gateway (`src/unnamed/part_006`) -/

/-- The data attached to an authenticated socket: the socket id, the user
id, and the ids of the active households loaded at handshake time
(`socket.user.households`). -/
structure SocketUser where
  sid : Nat
  userId : Nat
  households : List Nat
deriving DecidableEq, Repr

/-- Outcome of a room-join event handler. -/
inductive JoinOutcome
  | joined (roomName : String)
  | errorMsg (msg : String)
deriving DecidableEq, Repr

/-- The `collab:join` handler: requires `documentType` and `documentId`;
checks active household membership only when the payload carries a
`householdId`; then joins the room. -/
def collabJoin (u : SocketUser) (documentType : Option String)
    (documentId : Option Nat) (householdId : Option Nat) : JoinOutcome :=
  match documentType, documentId with
  | some dt, some did =>
    match householdId with
    | some h =>
      if u.households.contains h then .joined s!"collab:{dt}:{did}"
      else .errorMsg "Access denied to this household"
    | none => .joined s!"collab:{dt}:{did}"
  | _, _ => .errorMsg "Document type and ID required"

/-- The `chat:join` handler: joins the chat room unconditionally — it
performs no household membership check at all. -/
def chatJoin (_u : SocketUser) (roomType : String) (roomId : Nat) : JoinOutcome :=
  .joined s!"chat:{roomType}:{roomId}"

/-! ### Chat history (`sendRecentMessages` in `src/unnamed/part_006`) -/

/-- A formatted history entry as emitted inside `chat:history`. -/
structure HistoryMsg where
  msgId : Nat
  userId : Nat
  message : String
  parentId : Option Nat
  timestamp : Nat
deriving DecidableEq, Repr

/-- The projection applied to each fetched row before emitting history. -/
def formatMsg (m : ChatMsg) : HistoryMsg :=
  { msgId := m.msgId, userId := m.userId, message := m.message
    parentId := m.parentId, timestamp := m.createdAt }

/-- The rows of `chat_messages` matching the `where` clause of
`sendRecentMessages`. -/
def roomMessages (db : Db) (roomType : String) (roomId : Nat) : List ChatMsg :=
  db.chatMessages.filter (fun m => m.roomType == roomType && m.roomId == roomId)

/-- Insert a message into a list kept in descending `created_at` order. -/
def insertDescBy (m : ChatMsg) : List ChatMsg → List ChatMsg
  | [] => [m]
  | b :: l => if b.createdAt ≤ m.createdAt then m :: b :: l else b :: insertDescBy m l

/-- The store's `order by created_at desc`, modelled as an insertion sort. -/
def sortByCreatedAtDesc : List ChatMsg → List ChatMsg
  | [] => []
  | a :: l => insertDescBy a (sortByCreatedAtDesc l)

/-- `sendRecentMessages(socket, roomType, roomId, limit = 50)`: fetch the
room's messages ordered newest first, apply the SQL `limit`, then
`.reverse()` to oldest-first and format each row for the `chat:history`
event. -/
def sendRecentMessages (db : Db) (roomType : String) (roomId : Nat)
    (limit : Nat) : List HistoryMsg :=
  ((((sortByCreatedAtDesc (roomMessages db roomType roomId)).take limit).reverse).map formatMsg)

/-! ### Chat send (`chat:message` handler) -/

/-- Events a chat-send can emit: an `error` back to the sender, or a
`chat:message` delivery to one socket in the room (`io.to(room)` delivers
one copy to every socket in the room, the sender included). -/
inductive ChatOut
  | errorEv (target : Nat) (msg : String)
  | chatDeliver (target : Nat) (msgId : Nat)
deriving DecidableEq, Repr

/-- JavaScript `message.trim()`: strip leading and trailing whitespace. -/
def jsTrim (s : String) : String :=
  String.mk (((s.data.dropWhile Char.isWhitespace).reverse.dropWhile Char.isWhitespace).reverse)

/-- The `chat_messages` row the `chat:message` handler inserts. -/
def mkChatRow (sender : SocketUser) (roomType : String) (roomId : Nat)
    (message : String) (parentId : Option Nat) (freshId now : Nat) : ChatMsg :=
  { msgId := freshId, roomType := roomType, roomId := roomId
    userId := sender.userId, message := jsTrim message
    parentId := parentId, createdAt := now }

/-- The `chat:message` handler: reject empty/whitespace-only text with an
`error` event and no persistence; otherwise insert the row into
`chat_messages` and, only after the insert commits, broadcast one copy to
every socket currently in the room.  `insertOk` models whether the insert
commits; on failure the catch block emits `error` and nothing is
broadcast. -/
def chatMessageHandler (db : Db) (sender : SocketUser)
    (roomMembersNow : List Nat) (roomType : String) (roomId : Nat)
    (message : String) (parentId : Option Nat) (freshId now : Nat)
    (insertOk : Bool) : Db × List ChatOut :=
  if (jsTrim message).length == 0 then
    (db, [.errorEv sender.sid "Message cannot be empty"])
  else if insertOk then
    ({ db with chatMessages :=
        db.chatMessages ++ [mkChatRow sender roomType roomId message parentId freshId now] },
     roomMembersNow.map (fun t => .chatDeliver t freshId))
  else
    (db, [.errorEv sender.sid "Failed to send message"])

/-! ### Presence (`io.on('connection')` / `socket.on('disconnect')`) -/

/-- A live connection: socket id plus the authenticated user id. -/
structure Conn where
  connId : Nat
  userId : Nat
deriving DecidableEq, Repr

/-- A presence broadcast, as emitted by `socket.broadcast.emit`. -/
inductive PresenceEv
  | online (userId : Nat)
  | offline (userId : Nat)
deriving DecidableEq, Repr

/-- A gateway step: a socket connects (after successful authentication) or
a connected socket disconnects. -/
inductive ConnStep
  | connect (c : Conn)
  | disconnect (connId : Nat)
deriving DecidableEq, Repr

/-- Gateway state: the locally connected sockets and the log of presence
broadcasts emitted so far. -/
structure GatewayState where
  connected : List Conn
  log : List PresenceEv
deriving DecidableEq, Repr

/-- One gateway transition.  Every successful connection broadcasts exactly
one `user:online`; every disconnect of a connected socket broadcasts
exactly one `user:offline`.  No per-user deduplication happens anywhere. -/
def gatewayStep (s : GatewayState) : ConnStep → GatewayState
  | .connect c =>
    { connected := c :: s.connected, log := s.log ++ [.online c.userId] }
  | .disconnect id =>
    match s.connected.find? (fun c => c.connId == id) with
    | some c =>
      { connected := s.connected.filter (fun d => d.connId != id)
        log := s.log ++ [.offline c.userId] }
    | none => s

/-- Run a sequence of gateway steps from a state. -/
def gatewayRun (s : GatewayState) (steps : List ConnStep) : GatewayState :=
  steps.foldl gatewayStep s

/-- Number of `user:online` broadcasts for a given user in a log. -/
def onlineCount (u : Nat) : List PresenceEv → Nat
  | [] => 0
  | .online v :: t => (if v = u then 1 else 0) + onlineCount u t
  | .offline _ :: t => onlineCount u t

/-- Number of `user:offline` broadcasts for a given user in a log. -/
def offlineCount (u : Nat) : List PresenceEv → Nat
  | [] => 0
  | .online _ :: t => offlineCount u t
  | .offline v :: t => (if v = u then 1 else 0) + offlineCount u t

/-- Number of connect steps for a given user in a step sequence. -/
def connectCount (u : Nat) : List ConnStep → Nat
  | [] => 0
  | .connect c :: t => (if c.userId = u then 1 else 0) + connectCount u t
  | .disconnect _ :: t => connectCount u t

/-! ### Highlights (`collab:highlight` handler) -/

/-- The timer a `collab:highlight` schedules: the creating socket id, the
item, and the absolute due time of the removal broadcast. -/
structure HighlightTimer where
  creatorSid : Nat
  itemId : Nat
  dueAt : Nat
deriving DecidableEq, Repr

/-- The `collab:highlight` handler: broadcast the highlight immediately via
`socket.to(room)` (every socket in the room except the creator), and
schedule the removal timer for 30000 ms later. -/
def collabHighlight (creatorSid : Nat) (roomMembersNow : List Nat)
    (itemId now : Nat) : List Nat × HighlightTimer :=
  (roomMembersNow.filter (fun s => s ≠ creatorSid),
   { creatorSid := creatorSid, itemId := itemId, dueAt := now + 30000 })

/-- Firing the removal timer: the `setTimeout` callback runs
`socket.to(room).emit('collab:highlight-remove', ...)`, which delivers to
every socket in the room at fire time except the creating socket — the
sender-exclusion applies whether or not the creator is still connected. -/
def fireHighlightRemoval (t : HighlightTimer) (roomMembersAtFire : List Nat) :
    List Nat :=
  roomMembersAtFire.filter (fun s => s ≠ t.creatorSid)

/-! ### Concurrent admission attempts

The accept handler performs its capacity check (`canAddUserToHousehold`)
and its membership insert as two separate round-trips to the store with no
surrounding transaction.  The model below makes those two steps explicit
atomic events of an in-flight accept request, so that arbitrary
interleavings of concurrent requests can be executed. -/

/-- An in-flight accept request: the invitation being accepted, the
accepting user, and the row id its insert will use. -/
structure AcceptCtx where
  inv : Invitation
  userId : Nat
  freshMemberId : Nat
deriving DecidableEq, Repr

/-- Where an in-flight accept request stands: before its capacity check,
after a passed check but before its insert, or finished (admitted or
rejected). -/
inductive AccPhase
  | idle
  | allowed
  | finished (admitted : Bool)
deriving DecidableEq, Repr

/-- Positional lookup in a list. -/
def nth? : Nat → List α → Option α
  | _, [] => none
  | 0, a :: _ => some a
  | n + 1, _ :: l => nth? n l

/-- Positional update in a list. -/
def updAt (f : α → α) : Nat → List α → List α
  | _, [] => []
  | 0, a :: l => f a :: l
  | n + 1, a :: l => a :: updAt f n l

/-- State of the concurrent system: the shared store and the phases of the
in-flight accept requests. -/
structure ConcState where
  db : Db
  pend : List (AcceptCtx × AccPhase)
deriving DecidableEq, Repr

/-- An atomic event: request `i` runs its capacity check, or request `i`
runs its insert. -/
inductive AdmOp
  | check (i : Nat)
  | insert (i : Nat)
deriving DecidableEq, Repr

/-- One atomic step.  A `check` performs `canAddUserToHousehold` against
the current store and records the verdict; an `insert` of a request whose
check passed appends the membership row and marks the invitation accepted,
exactly as the accept handler does. -/
def admStep (maxUsers : Nat) (s : ConcState) : AdmOp → ConcState
  | .check i =>
    match nth? i s.pend with
    | some (c, .idle) =>
      if (canAddUserToHousehold s.db c.inv.householdId maxUsers).canAdd then
        { s with pend := updAt (fun p => (p.1, .allowed)) i s.pend }
      else
        { s with pend := updAt (fun p => (p.1, .finished false)) i s.pend }
    | _ => s
  | .insert i =>
    match nth? i s.pend with
    | some (c, .allowed) =>
      { db := { s.db with
          members := s.db.members ++ [mkAcceptMember c.inv c.userId c.freshMemberId]
          invitations := markAccepted s.db.invitations c.inv.invId }
        pend := updAt (fun p => (p.1, .finished true)) i s.pend }
    | _ => s

/-- Execute a schedule of atomic events. -/
def admRun (maxUsers : Nat) (s : ConcState) (ops : List AdmOp) : ConcState :=
  ops.foldl (admStep maxUsers) s

/-- Schedules in which each accept request runs its capacity check and its
insert back to back, with no other event interleaved between them — the
serialized (transactional) execution the spec demands. -/
inductive SerialOps : List AdmOp → Prop
  | nil : SerialOps []
  | pair (i : Nat) {rest : List AdmOp} :
      SerialOps rest → SerialOps (.check i :: .insert i :: rest)

/-- The admission invariant on the concurrent-system state: every
household respects the cap, and no request sits between a passed capacity
check and its insert. -/
def CapInvariant (maxUsers : Nat) (s : ConcState) : Prop :=
  (∀ h, activeMemberCount s.db h ≤ maxUsers) ∧
  ∀ p ∈ s.pend, p.2 ≠ AccPhase.allowed

/-- Number of `chat:message` copies delivered to a given socket in an
output event list. -/
def deliveriesTo (sid : Nat) : List ChatOut → Nat
  | [] => 0
  | .chatDeliver t _ :: rest => (if t = sid then 1 else 0) + deliveriesTo sid rest
  | .errorEv _ _ :: rest => deliveriesTo sid rest

/-! ## Concrete example states -/

/-- An active member row of household 1. -/
def exMember (i : Nat) : Membership :=
  { memberId := i, householdId := 1, userId := i, role := "member"
    permissions := "read_write", canInvite := false, isActive := true }

/-- A pending invitation into household 1, expiring at time 1000. -/
def exInvitation (id : Nat) (em : String) : Invitation :=
  { invId := id, householdId := 1, email := em, role := "member"
    permissions := "read_write", status := "pending", expiresAt := 1000 }

/-- Household 1 with four active members and two pending invitations. -/
def raceDb : Db :=
  { users := [], households := []
    members := [exMember 1, exMember 2, exMember 3, exMember 4]
    invitations := [exInvitation 100 "u6@x.com", exInvitation 101 "u7@x.com"]
    chatMessages := [] }

/-- Two in-flight accepts of the two pending invitations against `raceDb`. -/
def raceState : ConcState :=
  { db := raceDb
    pend := [({ inv := exInvitation 100 "u6@x.com", userId := 6, freshMemberId := 5 }, .idle),
             ({ inv := exInvitation 101 "u7@x.com", userId := 7, freshMemberId := 6 }, .idle)] }

/-- Household 1 at the default cap: five active members, one pending
invitation for a sixth user. -/
def capDb : Db :=
  { users := [], households := []
    members := [exMember 1, exMember 2, exMember 3, exMember 4, exMember 5]
    invitations := [exInvitation 100 "u6@x.com"]
    chatMessages := [] }

/-- A household-1 chat message with the given id and timestamp. -/
def exChatMsg (i t : Nat) : ChatMsg :=
  { msgId := i, roomType := "household", roomId := 1, userId := i
    message := s!"message {i}", parentId := none, createdAt := t }

/-- A store holding three chat messages for household 1, in ascending
timestamp order. -/
def dbChat : Db :=
  { users := [], households := [], members := [], invitations := []
    chatMessages := [exChatMsg 1 10, exChatMsg 2 20, exChatMsg 3 30] }

/-- An inactive membership row for user 9 in household 1. -/
def exInactiveMember : Membership :=
  { memberId := 9, householdId := 1, userId := 9, role := "member"
    permissions := "read_write", canInvite := false, isActive := false }

/-- Household 1 at the cap (five active members) where user 9 also holds an
inactive membership row. -/
def capReactDb : Db :=
  { users := [{ userId := 9, email := "u9@x.com", username := "u9", isActive := true }]
    households := []
    members := [exMember 1, exMember 2, exMember 3, exMember 4, exMember 5, exInactiveMember]
    invitations := [], chatMessages := [] }

/-- Household 1 below the cap (two active members) where user 9 holds an
inactive membership row. -/
def reactDb : Db :=
  { users := [{ userId := 9, email := "u9@x.com", username := "u9", isActive := true }]
    households := []
    members := [exMember 1, exMember 2, exInactiveMember]
    invitations := [], chatMessages := [] }

/-! ## Supporting lemmas -/

theorem nth?_updAt_self (f : α → α) (i : Nat) (l : List α) :
    nth? i (updAt f i l) = (nth? i l).map f := by
  induction l generalizing i with
  | nil => cases i <;> simp [nth?, updAt]
  | cons a t ih => cases i <;> simp [nth?, updAt, ih]

theorem updAt_updAt (f g : α → α) (i : Nat) (l : List α) :
    updAt f i (updAt g i l) = updAt (fun a => f (g a)) i l := by
  induction l generalizing i with
  | nil => cases i <;> simp [updAt]
  | cons a t ih => cases i <;> simp [updAt, ih]

theorem mem_updAt {f : α → α} {l : List α} {a : α} :
    ∀ {i : Nat}, a ∈ updAt f i l → a ∈ l ∨ ∃ b, b ∈ l ∧ a = f b := by
  induction l with
  | nil => intro i h; simp [updAt] at h
  | cons c t ih =>
    intro i h
    cases i with
    | zero =>
      rw [updAt] at h
      rcases List.mem_cons.mp h with h | h
      · exact Or.inr ⟨c, by simp, h⟩
      · exact Or.inl (List.mem_cons_of_mem _ h)
    | succ n =>
      rw [updAt] at h
      rcases List.mem_cons.mp h with h | h
      · exact Or.inl (by simp [h])
      · rcases ih h with h' | ⟨b, hb, hab⟩
        · exact Or.inl (List.mem_cons_of_mem _ h')
        · exact Or.inr ⟨b, List.mem_cons_of_mem _ hb, hab⟩

theorem nth?_mem {i : Nat} {l : List α} {a : α} (h : nth? i l = some a) :
    a ∈ l := by
  induction l generalizing i with
  | nil => simp [nth?] at h
  | cons c t ih =>
    cases i with
    | zero => simp [nth?] at h; simp [h]
    | succ n => exact List.mem_cons_of_mem _ (ih h)

theorem activeMemberCount_update (db : Db) (m : Membership)
    (invs2 : List Invitation) (h : Nat) :
    activeMemberCount { db with members := db.members ++ [m], invitations := invs2 } h =
      activeMemberCount db h +
        (if m.householdId == h && m.isActive then 1 else 0) := by
  simp only [activeMemberCount, List.filter_append, List.length_append]
  cases hv : (m.householdId == h && m.isActive) <;> simp [List.filter, hv]

theorem onlineCount_append (u : Nat) (l1 l2 : List PresenceEv) :
    onlineCount u (l1 ++ l2) = onlineCount u l1 + onlineCount u l2 := by
  induction l1 with
  | nil => simp [onlineCount]
  | cons e t ih => cases e <;> simp [onlineCount, ih] <;> omega

theorem deliveriesTo_map (sid mid : Nat) (l : List Nat) :
    deliveriesTo sid (l.map (fun t => ChatOut.chatDeliver t mid)) = l.count sid := by
  induction l with
  | nil => simp [deliveriesTo]
  | cons a t ih =>
    simp [deliveriesTo, ih, List.count_cons]
    by_cases h : a = sid <;> simp [h] <;> omega

theorem insertDescBy_append (m : ChatMsg) (l : List ChatMsg)
    (h : ∀ x ∈ l, m.createdAt < x.createdAt) : insertDescBy m l = l ++ [m] := by
  induction l with
  | nil => simp [insertDescBy]
  | cons b t ih =>
    have hb := h b (by simp)
    have hnb : ¬ (b.createdAt ≤ m.createdAt) := by omega
    simp only [insertDescBy, if_neg hnb, List.cons_append, List.cons.injEq, true_and]
    exact ih (fun x hx => h x (by simp [hx]))

theorem sortByCreatedAtDesc_of_ascending (l : List ChatMsg)
    (h : l.Pairwise (fun a b => a.createdAt < b.createdAt)) :
    sortByCreatedAtDesc l = l.reverse := by
  induction l with
  | nil => simp [sortByCreatedAtDesc]
  | cons a t ih =>
    rw [List.pairwise_cons] at h
    obtain ⟨ha, ht⟩ := h
    rw [List.reverse_cons, sortByCreatedAtDesc, ih ht]
    exact insertDescBy_append a t.reverse (fun x hx => ha x (List.mem_reverse.mp hx))

theorem reverse_take_reverse (l : List ChatMsg) (n : Nat) :
    (l.reverse.take n).reverse = l.drop (l.length - n) := by
  rw [List.reverse_take]
  simp

theorem admStep_check_insert_inv (maxUsers : Nat) (s : ConcState) (i : Nat)
    (hinv : CapInvariant maxUsers s) :
    CapInvariant maxUsers (admStep maxUsers (admStep maxUsers s (.check i)) (.insert i)) := by
  obtain ⟨hcnt, hph⟩ := hinv
  cases hn : nth? i s.pend with
  | none =>
    simp only [admStep, hn]
    exact ⟨hcnt, hph⟩
  | some p =>
    obtain ⟨c, ph⟩ := p
    cases ph with
    | allowed => exact absurd rfl (hph (c, .allowed) (nth?_mem hn))
    | finished b =>
      simp only [admStep, hn]
      exact ⟨hcnt, hph⟩
    | idle =>
      cases hc : (canAddUserToHousehold s.db c.inv.householdId maxUsers).canAdd with
      | true =>
        -- check passes, insert commits one active row
        have h1 : admStep maxUsers s (.check i) =
            { s with pend := updAt (fun p => (p.1, AccPhase.allowed)) i s.pend } := by
          simp only [admStep, hn, hc, if_true]
        have h2 : admStep maxUsers
            { s with pend := updAt (fun p => (p.1, AccPhase.allowed)) i s.pend } (.insert i) =
            { db := { s.db with
                members := s.db.members ++ [mkAcceptMember c.inv c.userId c.freshMemberId]
                invitations := markAccepted s.db.invitations c.inv.invId }
              pend := updAt (fun p => (p.1, AccPhase.finished true)) i s.pend } := by
          simp only [admStep, nth?_updAt_self, hn, Option.map_some', updAt_updAt]
        rw [h1, h2]
        constructor
        · intro h
          have hlt : activeMemberCount s.db c.inv.householdId < maxUsers := by
            simpa [canAddUserToHousehold] using hc
          have hcnth := hcnt h
          rw [activeMemberCount_update]
          by_cases hh : c.inv.householdId = h
          · subst hh
            simp only [mkAcceptMember, beq_self_eq_true, Bool.and_self, if_true]
            omega
          · have hne : ((mkAcceptMember c.inv c.userId c.freshMemberId).householdId == h) = false := by
              simp [mkAcceptMember, hh]
            simp only [hne, Bool.false_and, Bool.false_eq_true, if_false, Nat.add_zero]
            exact hcnth
        · intro p hp
          rcases mem_updAt hp with hp' | ⟨b, _, hab⟩
          · exact hph p hp'
          · subst hab; simp
      | false =>
        -- check fails, request finishes rejected, insert is a no-op
        have h1 : admStep maxUsers s (.check i) =
            { s with pend := updAt (fun p => (p.1, AccPhase.finished false)) i s.pend } := by
          simp only [admStep, hn, hc, Bool.false_eq_true, if_false]
        have h2 : admStep maxUsers
            { s with pend := updAt (fun p => (p.1, AccPhase.finished false)) i s.pend } (.insert i) =
            { s with pend := updAt (fun p => (p.1, AccPhase.finished false)) i s.pend } := by
          simp only [admStep, nth?_updAt_self, hn, Option.map_some']
        rw [h1, h2]
        constructor
        · exact hcnt
        · intro p hp
          rcases mem_updAt hp with hp' | ⟨b, _, hab⟩
          · exact hph p hp'
          · subst hab; simp

theorem admRun_serial_inv (maxUsers : Nat) {ops : List AdmOp}
    (hser : SerialOps ops) :
    ∀ s : ConcState, CapInvariant maxUsers s →
      CapInvariant maxUsers (admRun maxUsers s ops) := by
  induction hser with
  | nil => intro s h; exact h
  | @pair i rest hrest ih =>
    intro s h
    have hr : admRun maxUsers s (.check i :: .insert i :: rest) =
        admRun maxUsers (admStep maxUsers (admStep maxUsers s (.check i)) (.insert i)) rest := by
      simp [admRun]
    rw [hr]
    exact ih _ (admStep_check_insert_inv maxUsers s i h)

theorem gatewayRun_online (u : Nat) (steps : List ConnStep) :
    ∀ s : GatewayState,
      onlineCount u (gatewayRun s steps).log =
        onlineCount u s.log + connectCount u steps := by
  induction steps with
  | nil => intro s; simp [gatewayRun, connectCount]
  | cons st t ih =>
    intro s
    have hr : gatewayRun s (st :: t) = gatewayRun (gatewayStep s st) t := by
      simp [gatewayRun]
    rw [hr, ih]
    cases st with
    | connect c =>
      simp [gatewayStep, onlineCount_append, connectCount, onlineCount]
      omega
    | disconnect id =>
      cases hf : s.connected.find? (fun d => d.connId == id) with
      | none => simp [gatewayStep, hf, connectCount]
      | some c =>
        simp [gatewayStep, hf, onlineCount_append, connectCount, onlineCount]

/-! ## Claims -/

/-- C1, counterexample.  The claim says the count of active members never
exceeds `maxUsers` after any finite sequence of concurrent admission
attempts.  It fails on the code: the capacity check and the insert are
separate store round-trips, so from household 1 at four active members and
`maxUsers = 5`, the interleaving in which both pending accepts run their
checks before either insert commits leaves six active members. -/
theorem admission_check_then_act_race_cex :
    activeMemberCount raceState.db 1 = 4 ∧
    activeMemberCount (admRun 5 raceState [.check 0, .check 1, .insert 0, .insert 1]).db 1 = 6 ∧
    ¬ activeMemberCount (admRun 5 raceState [.check 0, .check 1, .insert 0, .insert 1]).db 1 ≤ 5 := by
  decide

/-- C1, amended.  When each admission attempt runs its capacity check and
its insert as one atomic unit (a serialized schedule), every household's
active-member count stays at or below `maxUsers` from any state that
satisfies the cap and has no attempt stopped between check and insert. -/
theorem serialized_admissions_respect_cap (maxUsers : Nat) (s : ConcState)
    (ops : List AdmOp) (hser : SerialOps ops)
    (hcap : ∀ h, activeMemberCount s.db h ≤ maxUsers)
    (hph : ∀ p ∈ s.pend, p.2 ≠ AccPhase.allowed) :
    ∀ h, activeMemberCount (admRun maxUsers s ops).db h ≤ maxUsers :=
  (admRun_serial_inv maxUsers hser s ⟨hcap, hph⟩).1

/-- C1, witness: the serialized schedule of the same two accepts from
`raceState` ends at five active members, within the cap. -/
theorem serialized_admissions_respect_cap_witness :
    activeMemberCount (admRun 5 raceState [.check 0, .insert 0, .check 1, .insert 1]).db 1 ≤ 5 :=
  serialized_admissions_respect_cap 5 raceState
    [.check 0, .insert 0, .check 1, .insert 1]
    (SerialOps.pair 0 (SerialOps.pair 1 SerialOps.nil))
    (fun _ => le_trans (List.length_filter_le _ _) (by decide))
    (by decide) 1

/-- C2, counterexample.  The claim says every admission rejection carries
`currentUsers` and `maxUsers` in the body.  The invitation-accept path
does not: a 6th accept against a household with five active members and
`maxUsers = 5` gets a 403 with the error but with neither count field. -/
theorem accept_rejection_lacks_counts_cex :
    activeMemberCount capDb 1 = 5 ∧
    (acceptInvitation capDb 5 0 6 "u6@x.com" 100 7 true).2.status = 403 ∧
    (acceptInvitation capDb 5 0 6 "u6@x.com" 100 7 true).2.error = some "User limit reached" ∧
    (acceptInvitation capDb 5 0 6 "u6@x.com" 100 7 true).2.currentUsers = none ∧
    (acceptInvitation capDb 5 0 6 "u6@x.com" 100 7 true).2.maxUsers = none := by
  decide

/-- C2, amended.  Every admission rejection is an HTTP 403 whose body has
error `User limit reached`; on the `checkUserCap` paths (registration,
invitation-send, reactivation) the body also carries `currentUsers` and
`maxUsers`, while the invitation-accept rejection carries only the error
and an advisory message, with no count fields. -/
theorem admission_rejection_contract (db : Db)
    (maxUsers now userId freshId invId h : Nat) (userEmail : String)
    (inv : Invitation) (bodyHid paramsHid userHid : Option Nat) (ok : Bool)
    (hres : (bodyHid <|> paramsHid <|> userHid) = some h)
    (hfull : maxUsers ≤ activeMemberCount db h)
    (hfind : findInvitation db now invId = some inv)
    (hinvh : inv.householdId = h)
    (hemail : userEmail = inv.email) :
    checkUserCap db maxUsers bodyHid paramsHid userHid =
      .error (userCapRejection (activeMemberCount db h) maxUsers) ∧
    userCapRejection (activeMemberCount db h) maxUsers =
      { status := 403, error := some "User limit reached"
        message := some (capLimitMessage maxUsers)
        currentUsers := some (activeMemberCount db h)
        maxUsers := some maxUsers } ∧
    acceptInvitation db maxUsers now userId userEmail invId freshId ok =
      (db, acceptCapRejection maxUsers) ∧
    acceptCapRejection maxUsers =
      { status := 403, error := some "User limit reached"
        message := some s!"Maximum {maxUsers} users allowed per household."
        currentUsers := none, maxUsers := none } := by
  have hnlt : ¬ activeMemberCount db inv.householdId < maxUsers := by
    rw [hinvh]; omega
  refine ⟨?_, rfl, ?_, rfl⟩
  · simp [checkUserCap, hres, hfull]
  · simp [acceptInvitation, hfind, hemail, canAddUserToHousehold, hnlt]

/-- C2, witness: the contract at the concrete at-capacity household of
`capDb`, for the pending invitation of user 6. -/
theorem admission_rejection_contract_witness :
    checkUserCap capDb 5 (some 1) none none =
      .error (userCapRejection (activeMemberCount capDb 1) 5) ∧
    userCapRejection (activeMemberCount capDb 1) 5 =
      { status := 403, error := some "User limit reached"
        message := some (capLimitMessage 5)
        currentUsers := some (activeMemberCount capDb 1)
        maxUsers := some 5 } ∧
    acceptInvitation capDb 5 0 6 "u6@x.com" 100 7 true =
      (capDb, acceptCapRejection 5) ∧
    acceptCapRejection 5 =
      { status := 403, error := some "User limit reached"
        message := some s!"Maximum {(5 : Nat)} users allowed per household."
        currentUsers := none, maxUsers := none } :=
  admission_rejection_contract capDb 5 0 6 7 100 1 "u6@x.com"
    (exInvitation 100 "u6@x.com") (some 1) none none true
    rfl (by decide) (by decide) rfl rfl

/-- C3.  An invitation-accept denied by the capacity check fails with the
admission error and leaves the store untouched: the invitation row keeps
status `pending` and no `household_members` row is created.  Moreover, on
every accept run whatsoever, the invitations table changes (the invitation
is marked accepted) only when exactly one membership row was created. -/
theorem accept_denied_preserves_pending (db : Db)
    (maxUsers now userId freshId invId : Nat) (userEmail : String)
    (inv : Invitation) (ok : Bool)
    (hfind : findInvitation db now invId = some inv)
    (hemail : userEmail = inv.email)
    (hfull : maxUsers ≤ activeMemberCount db inv.householdId) :
    acceptInvitation db maxUsers now userId userEmail invId freshId ok =
      (db, acceptCapRejection maxUsers) ∧
    (∀ (db2 : Db) (mx2 now2 uid2 invId2 fid2 : Nat) (em2 : String) (ok2 : Bool),
      (acceptInvitation db2 mx2 now2 uid2 em2 invId2 fid2 ok2).1.invitations ≠ db2.invitations →
      (acceptInvitation db2 mx2 now2 uid2 em2 invId2 fid2 ok2).1.members.length =
        db2.members.length + 1) := by
  constructor
  · have hnlt : ¬ activeMemberCount db inv.householdId < maxUsers := by omega
    simp [acceptInvitation, hfind, hemail, canAddUserToHousehold, hnlt]
  · intro db2 mx2 now2 uid2 invId2 fid2 em2 ok2 hch
    cases hf : findInvitation db2 now2 invId2 with
    | none => simp [acceptInvitation, hf] at hch
    | some iv =>
      by_cases he : em2 ≠ iv.email
      · simp [acceptInvitation, hf, he] at hch
      · cases hca : (canAddUserToHousehold db2 iv.householdId mx2).canAdd with
        | false => simp [acceptInvitation, hf, he, hca] at hch
        | true =>
          cases ok2 with
          | false => simp [acceptInvitation, hf, he, hca] at hch
          | true => simp [acceptInvitation, hf, he, hca]

/-- C3, witness: the denied 6th accept against `capDb` leaves the store
unchanged (the invitation row keeps status `pending`, no member row). -/
theorem accept_denied_preserves_pending_witness :
    acceptInvitation capDb 5 0 6 "u6@x.com" 100 7 true =
      (capDb, acceptCapRejection 5) :=
  (accept_denied_preserves_pending capDb 5 0 6 7 100 "u6@x.com"
    (exInvitation 100 "u6@x.com") true (by decide) rfl (by decide)).1

/-- C4, counterexample.  The claim says every join path requires an active
membership in the household the room is scoped to.  `chat:join` performs no
such check: a session holding no memberships at all successfully joins a
household-scoped chat room. -/
theorem chat_join_without_membership_cex :
    chatJoin { sid := 1, userId := 1, households := [] } "household" 7 =
      .joined "chat:household:7" ∧
    ({ sid := 1, userId := 1, households := [] } : SocketUser).households = [] := by
  decide

/-- C4, amended.  `collab:join` denies access when the payload carries a
`householdId` that the session has no active membership in, and joins when
it does; but when the payload omits `householdId`, and on `chat:join`
always, the join succeeds with no membership check. -/
theorem room_join_authorization (u : SocketUser) (dt rt : String)
    (did rid h : Nat) :
    (h ∉ u.households →
      collabJoin u (some dt) (some did) (some h) =
        .errorMsg "Access denied to this household") ∧
    (h ∈ u.households →
      collabJoin u (some dt) (some did) (some h) = .joined s!"collab:{dt}:{did}") ∧
    collabJoin u (some dt) (some did) none = .joined s!"collab:{dt}:{did}" ∧
    chatJoin u rt rid = .joined s!"chat:{rt}:{rid}" := by
  refine ⟨?_, ?_, rfl, rfl⟩
  · intro hm
    simp [collabJoin, hm]
  · intro hm
    simp [collabJoin, hm]

/-- C4, witness: for a session whose only active household is 5, joining
with household 9 is denied, with household 5 succeeds, and joins without a
household id or via chat always succeed. -/
theorem room_join_authorization_witness :
    collabJoin { sid := 1, userId := 1, households := [5] }
        (some "budget") (some 3) (some 9) =
      .errorMsg "Access denied to this household" ∧
    collabJoin { sid := 1, userId := 1, households := [5] }
        (some "budget") (some 3) (some 5) = .joined "collab:budget:3" ∧
    collabJoin { sid := 1, userId := 1, households := [5] }
        (some "budget") (some 3) none = .joined "collab:budget:3" ∧
    chatJoin { sid := 1, userId := 1, households := [5] } "household" 7 =
      .joined "chat:household:7" :=
  ⟨(room_join_authorization ⟨1, 1, [5]⟩ "budget" "household" 3 7 9).1 (by decide),
   (room_join_authorization ⟨1, 1, [5]⟩ "budget" "household" 3 7 5).2.1 (by decide),
   (room_join_authorization ⟨1, 1, [5]⟩ "budget" "household" 3 7 5).2.2.1,
   (room_join_authorization ⟨1, 1, [5]⟩ "budget" "household" 3 7 5).2.2.2⟩

/-- C5.  Assuming the room's persisted messages carry strictly increasing
timestamps in table order, the history sent on chat-join with the default
limit of 50 is exactly the last 50 of them, oldest first; when the room
holds at most 50 messages, all of them are sent, oldest first. -/
theorem chat_history_last_n (db : Db) (rt : String) (rid : Nat)
    (hsorted : (roomMessages db rt rid).Pairwise
      (fun a b => a.createdAt < b.createdAt)) :
    sendRecentMessages db rt rid 50 =
      ((roomMessages db rt rid).drop
        ((roomMessages db rt rid).length - 50)).map formatMsg ∧
    ((roomMessages db rt rid).length ≤ 50 →
      sendRecentMessages db rt rid 50 = (roomMessages db rt rid).map formatMsg) := by
  have h1 : sendRecentMessages db rt rid 50 =
      ((roomMessages db rt rid).drop
        ((roomMessages db rt rid).length - 50)).map formatMsg := by
    unfold sendRecentMessages
    rw [sortByCreatedAtDesc_of_ascending _ hsorted, reverse_take_reverse]
  refine ⟨h1, fun hle => ?_⟩
  rw [h1, Nat.sub_eq_zero_of_le hle, List.drop_zero]

/-- C5, witness: the three-message room of `dbChat` gets all three
messages, oldest first. -/
theorem chat_history_last_n_witness :
    sendRecentMessages dbChat "household" 1 50 =
      ((roomMessages dbChat "household" 1).drop
        ((roomMessages dbChat "household" 1).length - 50)).map formatMsg :=
  (chat_history_last_n dbChat "household" 1 (by decide)).1

/-- C6.  A non-empty chat message is first persisted and only then
broadcast: on a committed insert the handler appends exactly the new row
and delivers one copy to every socket currently in the room, so a sender
who is in the room receives exactly one self-echo; when the insert fails,
the store is unchanged and nothing is broadcast; empty text produces only
a validation error. -/
theorem chat_send_persist_then_broadcast (db : Db) (sender : SocketUser)
    (members : List Nat) (rt : String) (rid : Nat) (msg : String)
    (pid : Option Nat) (fid now : Nat) :
    ((jsTrim msg).length ≠ 0 →
      chatMessageHandler db sender members rt rid msg pid fid now true =
        ({ db with chatMessages :=
            db.chatMessages ++ [mkChatRow sender rt rid msg pid fid now] },
         members.map (fun t => .chatDeliver t fid))) ∧
    ((jsTrim msg).length ≠ 0 → members.Nodup → sender.sid ∈ members →
      deliveriesTo sender.sid
        (chatMessageHandler db sender members rt rid msg pid fid now true).2 = 1) ∧
    (chatMessageHandler db sender members rt rid msg pid fid now false).1 = db ∧
    (∀ t, deliveriesTo t
      (chatMessageHandler db sender members rt rid msg pid fid now false).2 = 0) ∧
    ((jsTrim msg).length = 0 →
      chatMessageHandler db sender members rt rid msg pid fid now true =
        (db, [.errorEv sender.sid "Message cannot be empty"])) := by
  refine ⟨?_, ?_, ?_, ?_, ?_⟩
  · intro hne
    simp [chatMessageHandler, hne]
  · intro hne hnd hmem
    simp only [chatMessageHandler, hne, beq_iff_eq, if_false, if_true]
    simp [hne, deliveriesTo_map, List.count_eq_one_of_mem hnd hmem]
  · by_cases hz : (jsTrim msg).length = 0 <;> simp [chatMessageHandler, hz]
  · intro t
    by_cases hz : (jsTrim msg).length = 0 <;> simp [chatMessageHandler, hz, deliveriesTo]
  · intro hz
    simp [chatMessageHandler, hz]

/-- C6, witness: sender socket 1, in room [1, 2], receives its own message
exactly once after a committed insert. -/
theorem chat_send_persist_then_broadcast_witness :
    deliveriesTo 1
      (chatMessageHandler dbChat { sid := 1, userId := 1, households := [1] }
        [1, 2] "household" 1 "hello" none 9 100 true).2 = 1 :=
  (chat_send_persist_then_broadcast dbChat ⟨1, 1, [1]⟩ [1, 2] "household" 1
    "hello" none 9 100).2.1 (by decide) (by decide) (by decide)

/-- C7.  Presence broadcasts are per connection, not per distinct user:
every run of the gateway emits exactly one `user:online` per connect step
(counted per user), each connect appends exactly one online event, each
disconnect of a connected socket appends exactly one offline event, and in
particular two sessions of user 7 connecting and one disconnecting yields
two online events and one offline event while user 7 is still connected. -/
theorem presence_is_per_connection :
    (∀ (s : GatewayState) (steps : List ConnStep) (u : Nat),
      onlineCount u (gatewayRun s steps).log =
        onlineCount u s.log + connectCount u steps) ∧
    (∀ (s : GatewayState) (c : Conn),
      (gatewayStep s (.connect c)).log = s.log ++ [.online c.userId]) ∧
    (∀ (s : GatewayState) (id : Nat) (c : Conn),
      s.connected.find? (fun d => d.connId == id) = some c →
      (gatewayStep s (.disconnect id)).log = s.log ++ [.offline c.userId]) ∧
    gatewayRun { connected := [], log := [] }
        [.connect { connId := 1, userId := 7 },
         .connect { connId := 2, userId := 7 }, .disconnect 1] =
      { connected := [{ connId := 2, userId := 7 }]
        log := [.online 7, .online 7, .offline 7] } := by
  refine ⟨fun s steps u => gatewayRun_online u steps s, fun s c => rfl, ?_, by decide⟩
  intro s id c hf
  simp [gatewayStep, hf]

/-- C7, witness: the double-connection scenario emits exactly two online
events for user 7. -/
theorem presence_is_per_connection_witness :
    onlineCount 7 (gatewayRun { connected := [], log := [] }
      [.connect { connId := 1, userId := 7 },
       .connect { connId := 2, userId := 7 }, .disconnect 1]).log = 2 := by
  have h := presence_is_per_connection.1 ⟨[], []⟩
    [.connect ⟨1, 7⟩, .connect ⟨2, 7⟩, .disconnect 1] 7
  simpa using h

/-- C8, counterexample.  The claim says the removal broadcast at T+30s
reaches all sessions still subscribed to the room.  The removal is emitted
with `socket.to(room)`, which excludes the creating socket: with creator
socket 1 still subscribed alongside socket 2, the removal reaches only
socket 2. -/
theorem highlight_removal_misses_creator_cex :
    (collabHighlight 1 [1, 2] 42 0).2 =
      { creatorSid := 1, itemId := 42, dueAt := 30000 } ∧
    fireHighlightRemoval { creatorSid := 1, itemId := 42, dueAt := 30000 } [1, 2] = [2] ∧
    (1 ∈ [1, 2]) ∧
    1 ∉ fireHighlightRemoval { creatorSid := 1, itemId := 42, dueAt := 30000 } [1, 2] := by
  decide

/-- C8, amended.  A highlight created at time T schedules its removal for
T+30s (30000 ms); when the timer fires, the removal reaches every session
then in the room other than the creating session, and whether the creating
session itself is still in the room does not change which other sessions
receive it. -/
theorem highlight_removal_contract (creator itemId now s : Nat)
    (members membersAtFire : List Nat) :
    (collabHighlight creator members itemId now).2.dueAt = now + 30000 ∧
    (s ≠ creator → s ∈ membersAtFire →
      s ∈ fireHighlightRemoval (collabHighlight creator members itemId now).2
        membersAtFire) ∧
    creator ∉ fireHighlightRemoval (collabHighlight creator members itemId now).2
      membersAtFire ∧
    fireHighlightRemoval (collabHighlight creator members itemId now).2
        (membersAtFire.filter (fun x => x ≠ creator)) =
      fireHighlightRemoval (collabHighlight creator members itemId now).2
        membersAtFire := by
  refine ⟨rfl, ?_, ?_, ?_⟩
  · intro hs hm
    simp [collabHighlight, fireHighlightRemoval, List.mem_filter, hm, hs]
  · simp [collabHighlight, fireHighlightRemoval, List.mem_filter]
  · simp [collabHighlight, fireHighlightRemoval, List.filter_filter]

/-- C8, witness: socket 2, still subscribed at fire time, receives the
removal of the highlight socket 1 created. -/
theorem highlight_removal_contract_witness :
    2 ∈ fireHighlightRemoval (collabHighlight 1 [1, 2] 42 0).2 [1, 2] :=
  (highlight_removal_contract 1 42 0 2 [1, 2] [1, 2]).2.1 (by decide) (by decide)

/-- C9.  A registration request carrying no household id anywhere (the
route has no params and no authenticated user, and the body omits it) is
answered 400 `Household ID is required` by the `checkUserCap` middleware
before the handler runs, and the store is unchanged: no user, household or
membership row is created. -/
theorem register_requires_household_id (db : Db) (maxUsers : Nat)
    (req : RegisterReq) (uid hid mid : Nat)
    (hb : req.bodyHouseholdId = none) :
    registerEndpoint db maxUsers req uid hid mid = (db, householdIdRequired) ∧
    householdIdRequired =
      { status := 400, error := some "Household ID is required"
        message := none, currentUsers := none, maxUsers := none } := by
  refine ⟨?_, rfl⟩
  simp [registerEndpoint, checkUserCap, hb]

/-- C9, witness: a fully valid registration body that merely omits
`householdId` is rejected 400 and the store stays as it was. -/
theorem register_requires_household_id_witness :
    registerEndpoint raceDb 5
      { bodyHouseholdId := none, email := some "new@x.com"
        username := some "newuser", password := some "longpassword"
        firstName := some "New", lastName := some "User" }
      10 11 12 = (raceDb, householdIdRequired) :=
  (register_requires_household_id raceDb 5
    { bodyHouseholdId := none, email := some "new@x.com"
      username := some "newuser", password := some "longpassword"
      firstName := some "New", lastName := some "User" }
    10 11 12 rfl).1

/-- C10, counterexample.  The claim says every invite whose target already
holds an inactive membership row is reactivated and answered success.  The
`checkUserCap` middleware runs first: at the cap (five active members),
such an invite is answered 403 and the inactive row is not reactivated. -/
theorem invite_reactivation_blocked_at_cap_cex :
    inviteEndpoint capReactDb 5 1
      { bodyHouseholdId := none, email := some "u9@x.com"
        role := none, permissions := none } 0 200 =
      (capReactDb, userCapRejection 5 5, []) ∧
    (userCapRejection 5 5).status = 403 ∧
    activeMemberCount capReactDb 1 = 5 := by
  decide

/-- C10, amended.  Provided the household is below the cap (the cap
middleware rejects otherwise), an invite whose target email belongs to an
existing user with an inactive membership row in the household reactivates
that row in place — `is_active` becomes true with the newly supplied role
and permissions — and returns success immediately, with no invitation row
created and no invitation email sent. -/
theorem invite_reactivates_inactive_member (db : Db)
    (maxUsers hid now fid : Nat) (req : InviteReq) (email : String)
    (u : UserRow) (m : Membership)
    (hb : req.bodyHouseholdId = none)
    (hcap : activeMemberCount db hid < maxUsers)
    (hemail : req.email = some email)
    (hu : db.users.find? (fun v => v.email == jsToLower email) = some u)
    (hm : db.members.find?
      (fun mm => mm.householdId == hid && mm.userId == u.userId) = some m)
    (hin : m.isActive = false) :
    inviteEndpoint db maxUsers hid req now fid =
      ({ db with members := db.members.map (fun mm =>
          if mm.memberId == m.memberId then
            { mm with
                isActive := true
                role := req.role.getD "member"
                permissions := req.permissions.getD "read_write" }
          else mm) },
       okResponse 200 "User reactivated successfully", []) ∧
    ({ db with members := db.members.map (fun mm =>
        if mm.memberId == m.memberId then
          { mm with
              isActive := true
              role := req.role.getD "member"
              permissions := req.permissions.getD "read_write" }
        else mm) } : Db).invitations = db.invitations := by
  have hnle : ¬ maxUsers ≤ activeMemberCount db hid := by omega
  refine ⟨?_, rfl⟩
  simp [inviteEndpoint, checkUserCap, hb, hnle, hemail, hu, hm, hin]

/-- C10, witness: inviting `U9@x.com` into the two-active-member household
of `reactDb` reactivates user 9's inactive row in place with the supplied
viewer/read-only role, creates no invitation and sends no email. -/
theorem invite_reactivates_inactive_member_witness :
    inviteEndpoint reactDb 5 1
      { bodyHouseholdId := none, email := some "U9@x.com"
        role := some "viewer", permissions := some "read_only" } 0 200 =
      ({ reactDb with members := reactDb.members.map (fun mm =>
          if mm.memberId == exInactiveMember.memberId then
            { mm with
                isActive := true
                role := (some "viewer").getD "member"
                permissions := (some "read_only").getD "read_write" }
          else mm) },
       okResponse 200 "User reactivated successfully", []) :=
  (invite_reactivates_inactive_member reactDb 5 1 0 200
    { bodyHouseholdId := none, email := some "U9@x.com"
      role := some "viewer", permissions := some "read_only" }
    "U9@x.com" { userId := 9, email := "u9@x.com", username := "u9", isActive := true }
    exInactiveMember rfl (by decide) rfl (by decide) (by decide) rfl).1

end FireFinance
